import Mathlib

/-!
Verification of the BMP encoder in src/utils/convert.ts.

The embedding models byte buffers as lists of natural numbers (each entry a
byte value), DataView writes as in-place list overwrites, and the
convertPngToBmp entry point as a pure function of the input file together
with an oracle for the outcome of the platform image-decoding steps
(object-URL image load plus canvas getImageData), which are external to the
repository. JS number-to-field conversions reduce values modulo 2^16 or
2^32 exactly as DataView.setUint16 / setUint32 / setInt32 do.
-/

/-- Little-endian byte pair stored by DataView.setUint16 with littleEndian
set: the value is reduced modulo 2^16, least significant byte first. -/
def u16le (v : Nat) : List Nat :=
  [v % 256, v / 256 % 256]

/-- Little-endian byte quadruple stored by DataView.setUint32 (and by
setInt32 applied to a nonnegative integer, which stores the same bytes):
the value is reduced modulo 2^32, least significant byte first. -/
def u32le (v : Nat) : List Nat :=
  [v % 256, v / 256 % 256, v / 65536 % 256, v / 16777216 % 256]

/-- Overwrite the entries of buf from offset off on with bytes, keeping
every other entry: a DataView write into an ArrayBuffer. A write reaching
past the end of the buffer is truncated (the writes performed by the source
all lie within bounds, so the truncation case never fires there). -/
def writeAt : List Nat → Nat → List Nat → List Nat
  | [], _, _ => []
  | buf, 0, [] => buf
  | _ :: rest, 0, b :: bs => b :: writeAt rest 0 bs
  | c :: rest, o + 1, bytes => c :: writeAt rest o bytes

/-- Read two bytes at offset off as a little-endian unsigned 16-bit value. -/
def readU16le (buf : List Nat) (off : Nat) : Nat :=
  buf.getD off 0 + 256 * buf.getD (off + 1) 0

/-- Read four bytes at offset off as a little-endian unsigned 32-bit value. -/
def readU32le (buf : List Nat) (off : Nat) : Nat :=
  buf.getD off 0 + 256 * buf.getD (off + 1) 0 + 65536 * buf.getD (off + 2) 0 +
    16777216 * buf.getD (off + 3) 0

/-- Read four bytes at offset off as a little-endian signed 32-bit value
(two's complement). -/
def readI32le (buf : List Nat) (off : Nat) : Int :=
  let n := readU32le buf off
  if n < 2147483648 then (n : Int) else (n : Int) - 4294967296

/-- The signed 32-bit value whose stored bytes agree with the natural
number v reduced modulo 2^32 (the ToInt32 conversion of JS). -/
def toInt32 (v : Nat) : Int :=
  if v % 4294967296 < 2147483648 then ((v % 4294967296 : Nat) : Int)
  else ((v % 4294967296 : Nat) : Int) - 4294967296

/-- createBmpFileHeader from src/utils/convert.ts: a fresh 14-byte
ArrayBuffer (zero-initialised) written through a DataView, little-endian:
magic bytes 0x42 0x4D at offsets 0 and 1, uint32 54 + imageSize at offset
2, uint16 0 at offsets 6 and 8, uint32 54 at offset 10. -/
def createBmpFileHeader (imageSize : Nat) : List Nat :=
  let buffer := List.replicate 14 0
  let buffer := writeAt buffer 0 [0x42]
  let buffer := writeAt buffer 1 [0x4D]
  let buffer := writeAt buffer 2 (u32le (54 + imageSize))
  let buffer := writeAt buffer 6 (u16le 0)
  let buffer := writeAt buffer 8 (u16le 0)
  let buffer := writeAt buffer 10 (u32le 54)
  buffer

/-- createBmpInfoHeader from src/utils/convert.ts: a fresh 40-byte
ArrayBuffer written through a DataView, little-endian: uint32 40 at offset
0, int32 width at 4, int32 height at 8, uint16 1 at 12, uint16 32 at 14,
uint32 0 at 16, uint32 width * height * 4 at 20, int32 2835 at 24 and 28,
uint32 0 at 32 and 36. Width and height come from an HTMLImageElement so
they are nonnegative integers; setInt32 stores the same bytes as setUint32
on such values. -/
def createBmpInfoHeader (width height : Nat) : List Nat :=
  let buffer := List.replicate 40 0
  let buffer := writeAt buffer 0 (u32le 40)
  let buffer := writeAt buffer 4 (u32le width)
  let buffer := writeAt buffer 8 (u32le height)
  let buffer := writeAt buffer 12 (u16le 1)
  let buffer := writeAt buffer 14 (u16le 32)
  let buffer := writeAt buffer 16 (u32le 0)
  let buffer := writeAt buffer 20 (u32le (width * height * 4))
  let buffer := writeAt buffer 24 (u32le 2835)
  let buffer := writeAt buffer 28 (u32le 2835)
  let buffer := writeAt buffer 32 (u32le 0)
  let buffer := writeAt buffer 36 (u32le 0)
  buffer

/-- The ImageData value produced by canvas getImageData: width, height and
the flat RGBA byte array (row-major, top row first). -/
structure ImageData where
  width : Nat
  height : Nat
  data : List Nat
  deriving Repr, DecidableEq

/-- convertToBGRA from src/utils/convert.ts. The double loop writes the
four bytes of destination index (y * width + x) * 4 for y then x in
increasing order, so the output is exactly the concatenation, over y then
x, of the four-byte groups read from source row height - 1 - y with the B
and R channels exchanged. Out-of-range reads of a Uint8Array yield
undefined, which a Uint8Array store coerces to 0, matching getD with
default 0. -/
def convertToBGRA (imageData : ImageData) : List Nat :=
  (List.range imageData.height).flatMap fun y =>
    (List.range imageData.width).flatMap fun x =>
      let sourceY := imageData.height - 1 - y
      let sourceIndex := (sourceY * imageData.width + x) * 4
      [imageData.data.getD (sourceIndex + 2) 0,
       imageData.data.getD (sourceIndex + 1) 0,
       imageData.data.getD sourceIndex 0,
       imageData.data.getD (sourceIndex + 3) 0]

/-- The channel permutation applied by convertToBGRA within one pixel:
destination channel c is read from source channel bgraChannel c. -/
def bgraChannel : Nat → Nat
  | 0 => 2
  | 1 => 1
  | 2 => 0
  | _ => 3

/-- JS String.prototype.includes on character lists: pat occurs as a
contiguous substring of s (the empty pattern always occurs). -/
def listIncludes (s pat : List Char) : Bool :=
  pat.isPrefixOf s ||
    match s with
    | [] => false
    | _ :: rest => listIncludes rest pat

/-- JS String.prototype.includes. -/
def strIncludes (s pat : String) : Bool :=
  listIncludes s.data pat.data

/-- JS String.prototype.replace with a string search argument on character
lists: only the first (leftmost) occurrence of pat is replaced by rep; if
pat does not occur, the string is returned unchanged. -/
def listReplaceFirst (s pat rep : List Char) : List Char :=
  if pat.isPrefixOf s then rep ++ s.drop pat.length
  else
    match s with
    | [] => []
    | c :: rest => c :: listReplaceFirst rest pat rep

/-- JS String.prototype.replace with a string search argument (the
replacement ".bmp" used in the source holds no dollar escapes). -/
def jsReplace (s pat rep : String) : String :=
  ⟨listReplaceFirst s.data pat.data rep.data⟩

/-- The DOM File fields convertPngToBmp reads: name and MIME type (the
field named type in JS; type is a reserved word in Lean). -/
structure JsFile where
  name : String
  mimeType : String
  deriving Repr, DecidableEq

/-- What an object URL returned by the function points to: either the
original input file (URL.createObjectURL(file)) or a Blob holding the
assembled BMP bytes. -/
inductive UrlTarget where
  | sourceFile
  | bmpBlob (bytes : List Nat)
  deriving Repr, DecidableEq

/-- The result record of convertPngToBmp: the derived file name and the
object URL. -/
structure ConvertedFile where
  name : String
  url : UrlTarget
  deriving Repr, DecidableEq

/-- The observable side-effecting steps of convertPngToBmp, in program
order: creating an object URL, starting the image load and decode, building
the two headers, and transcoding the pixels. -/
inductive ConvAction where
  | createObjectUrl
  | loadImage
  | buildHeaders
  | transcode
  deriving Repr, DecidableEq

/-- The buffer assembly of lines 139 to 142: allocate a zero Uint8Array of
the combined size and copy the file header, the info header and the pixel
data at offsets 0, fileHeader.length and fileHeader.length +
infoHeader.length. -/
def assembleBmp (fileHeader infoHeader pixelData : List Nat) : List Nat :=
  let bmpData := List.replicate (fileHeader.length + infoHeader.length + pixelData.length) 0
  let bmpData := writeAt bmpData 0 fileHeader
  let bmpData := writeAt bmpData fileHeader.length infoHeader
  let bmpData := writeAt bmpData (fileHeader.length + infoHeader.length) pixelData
  bmpData

/-- The try block of convertPngToBmp (lines 110 to 147), given the outcome
of the external decode steps (lines 112 to 129: the awaited image load plus
canvas getImageData; an Except.error models image.onerror firing, a null
canvas context, or any other throw in that region). On success the headers
are built from imageData.data.length and the image dimensions, the pixels
are transcoded, the parts assembled, and the block produces the success
record whose URL points at the BMP blob. Returns the performed actions in
order together with the completion of the block. -/
def tryBlockResult (file : JsFile) (decode : Except String ImageData) :
    List ConvAction × Except String ConvertedFile :=
  match decode with
  | .error e => ([ConvAction.createObjectUrl, ConvAction.loadImage], .error e)
  | .ok imageData =>
      let fileHeader := createBmpFileHeader imageData.data.length
      let infoHeader := createBmpInfoHeader imageData.width imageData.height
      let pixelData := convertToBGRA imageData
      let bmpData := assembleBmp fileHeader infoHeader pixelData
      ([ConvAction.createObjectUrl, ConvAction.loadImage, ConvAction.buildHeaders, ConvAction.transcode],
       .ok { name := jsReplace file.name ".png" ".bmp",
             url := UrlTarget.bmpBlob bmpData })

/-- The value returned by the finally block (lines 148 to 153): the derived
name together with an object URL for the original input file. -/
def finallyResult (file : JsFile) : ConvertedFile :=
  { name := jsReplace file.name ".png" ".bmp", url := UrlTarget.sourceFile }

/-- convertPngToBmp from src/utils/convert.ts with an explicit trace. The
format check (line 102) throws before the try block when the MIME type does
not contain "png". Otherwise the try block runs, and because the finally
block contains a return statement, that return replaces every completion of
the try block (both its return value and any thrown error), so the function
resolves with finallyResult whenever the format check passes. The finally
block itself creates one more object URL. -/
def convertPngToBmpRun (file : JsFile) (decode : Except String ImageData) :
    List ConvAction × Except String ConvertedFile :=
  if strIncludes file.mimeType "png" then
    let traced := tryBlockResult file decode
    (traced.1 ++ [ConvAction.createObjectUrl], Except.ok (finallyResult file))
  else
    ([], Except.error "Only PNG files are supported")

/-- The returned promise outcome of convertPngToBmp: Except.error models a
rejected promise (a thrown error), Except.ok a resolved one. -/
def convertPngToBmp (file : JsFile) (decode : Except String ImageData) :
    Except String ConvertedFile :=
  (convertPngToBmpRun file decode).2

/-- A 1 by 1 RGBA image with the single pixel 10 20 30 40. -/
def img1x1 : ImageData :=
  { width := 1, height := 1, data := [10, 20, 30, 40] }

/-- A 1 by 2 RGBA image (one column, two rows): top row 1 2 3 4, bottom
row 5 6 7 8. -/
def img1x2 : ImageData :=
  { width := 1, height := 2, data := [1, 2, 3, 4, 5, 6, 7, 8] }

/-- A PNG input file named photo.png. -/
def pngFile : JsFile :=
  { name := "photo.png", mimeType := "image/png" }

/-- A PNG input file whose name has no extension. -/
def noextFile : JsFile :=
  { name := "noext", mimeType := "image/png" }

/-- A JPEG input file. -/
def jpegFile : JsFile :=
  { name := "photo.jpg", mimeType := "image/jpeg" }

/-- The file header, fully evaluated: the fields land at their offsets with
the file-size field reduced modulo 2^32 by the DataView write. -/
theorem createBmpFileHeader_eq (s : Nat) :
    createBmpFileHeader s =
      [0x42, 0x4D,
       (54 + s) % 256, (54 + s) / 256 % 256, (54 + s) / 65536 % 256,
       (54 + s) / 16777216 % 256,
       0, 0, 0, 0, 54, 0, 0, 0] := rfl

/-- The info header, fully evaluated: 2835 is stored as the byte pair 19,
11 and every 32-bit field is reduced modulo 2^32 by the DataView write. -/
theorem createBmpInfoHeader_eq (w h : Nat) :
    createBmpInfoHeader w h =
      [40, 0, 0, 0,
       w % 256, w / 256 % 256, w / 65536 % 256, w / 16777216 % 256,
       h % 256, h / 256 % 256, h / 65536 % 256, h / 16777216 % 256,
       1, 0, 32, 0, 0, 0, 0, 0,
       w * h * 4 % 256, w * h * 4 / 256 % 256, w * h * 4 / 65536 % 256,
       w * h * 4 / 16777216 % 256,
       19, 11, 0, 0, 19, 11, 0, 0, 0, 0, 0, 0, 0, 0, 0, 0] := rfl

/-- C5 counterexample: the claim asserts the file-size field equals 54 +
pixelDataByteLength for every pixelDataByteLength, but at 2^32 the DataView
write wraps modulo 2^32 and the field reads back 54. -/
theorem fileHeader_size_field_wraps :
    readU32le (createBmpFileHeader 4294967296) 2 ≠ 54 + 4294967296 := by decide

/-- C5 (amended): createBmpFileHeader returns exactly 14 bytes beginning
0x42, 0x4D, with the little-endian unsigned 32-bit file-size field at
offset 2 equal to (54 + pixelDataByteLength) reduced modulo 2^32, two zero
16-bit reserved fields at offsets 6 and 8, and the little-endian unsigned
32-bit pixel-data-offset field equal to 54 at offset 10. -/
theorem fileHeader_layout (s : Nat) :
    (createBmpFileHeader s).length = 14 ∧
    (createBmpFileHeader s).getD 0 0 = 0x42 ∧
    (createBmpFileHeader s).getD 1 0 = 0x4D ∧
    readU32le (createBmpFileHeader s) 2 = (54 + s) % 4294967296 ∧
    readU16le (createBmpFileHeader s) 6 = 0 ∧
    readU16le (createBmpFileHeader s) 8 = 0 ∧
    readU32le (createBmpFileHeader s) 10 = 54 := by
  refine ⟨rfl, rfl, rfl, ?_, rfl, rfl, rfl⟩
  show (54 + s) % 256 + 256 * ((54 + s) / 256 % 256) + 65536 * ((54 + s) / 65536 % 256) +
      16777216 * ((54 + s) / 16777216 % 256) = (54 + s) % 4294967296
  omega

/-- Reading back four bytes as a signed little-endian 32-bit value yields
the ToInt32 conversion of any natural number whose modulo-2^32 reduction
the unsigned read returns. -/
theorem readI32le_toInt32 (buf : List Nat) (off : Nat) (v : Nat)
    (e : readU32le buf off = v % 4294967296) :
    readI32le buf off = toInt32 v := by
  simp only [readI32le, toInt32, e]

/-- C6 counterexample: the claim asserts the image-byte-size field equals
width * height * 4 for all positive dimensions, but at width = height =
65536 the product 2^34 wraps modulo 2^32 and the field reads back 0. -/
theorem infoHeader_image_size_field_wraps :
    readU32le (createBmpInfoHeader 65536 65536) 20 ≠ 65536 * 65536 * 4 := by decide

set_option maxRecDepth 8192 in
/-- C6 (amended): createBmpInfoHeader returns exactly 40 bytes whose
little-endian fields hold, after the modulo-2^32 reduction every DataView
32-bit write performs: header-size 40 at offset 0, the signed 32-bit
reductions of width and height at offsets 4 and 8, planes 1 at offset 12,
bits-per-pixel 32 at offset 14, compression 0 at offset 16, image byte size
width * height * 4 modulo 2^32 at offset 20, horizontal and vertical
resolution 2835 at offsets 24 and 28, and zero palette fields at offsets
32 and 36. -/
theorem infoHeader_layout (w h : Nat) :
    (createBmpInfoHeader w h).length = 40 ∧
    readU32le (createBmpInfoHeader w h) 0 = 40 ∧
    readI32le (createBmpInfoHeader w h) 4 = toInt32 w ∧
    readI32le (createBmpInfoHeader w h) 8 = toInt32 h ∧
    readU16le (createBmpInfoHeader w h) 12 = 1 ∧
    readU16le (createBmpInfoHeader w h) 14 = 32 ∧
    readU32le (createBmpInfoHeader w h) 16 = 0 ∧
    readU32le (createBmpInfoHeader w h) 20 = w * h * 4 % 4294967296 ∧
    readI32le (createBmpInfoHeader w h) 24 = 2835 ∧
    readI32le (createBmpInfoHeader w h) 28 = 2835 ∧
    readU32le (createBmpInfoHeader w h) 32 = 0 ∧
    readU32le (createBmpInfoHeader w h) 36 = 0 := by
  simp only [createBmpInfoHeader_eq]
  refine ⟨rfl, rfl, ?_, ?_, rfl, rfl, rfl, ?_, rfl, rfl, rfl, rfl⟩
  · refine readI32le_toInt32 _ _ w ?_
    show w % 256 + 256 * (w / 256 % 256) + 65536 * (w / 65536 % 256) +
        16777216 * (w / 16777216 % 256) = w % 4294967296
    omega
  · refine readI32le_toInt32 _ _ h ?_
    show h % 256 + 256 * (h / 256 % 256) + 65536 * (h / 65536 % 256) +
        16777216 * (h / 16777216 % 256) = h % 4294967296
    omega
  · show w * h * 4 % 256 + 256 * (w * h * 4 / 256 % 256) + 65536 * (w * h * 4 / 65536 % 256) +
        16777216 * (w * h * 4 / 16777216 % 256) = w * h * 4 % 4294967296
    omega

/-- Writing bytes at offset 0 replaces an initial segment of the buffer. -/
theorem writeAt_zero (bytes : List Nat) : ∀ buf : List Nat, bytes.length ≤ buf.length →
    writeAt buf 0 bytes = bytes ++ buf.drop bytes.length := by
  induction bytes with
  | nil => intro buf _; cases buf <;> rfl
  | cons b bs ih =>
    intro buf hlen
    cases buf with
    | nil => simp at hlen
    | cons x rest =>
      show b :: writeAt rest 0 bs = (b :: bs) ++ (x :: rest).drop (bs.length + 1)
      rw [ih rest (by simp only [List.length_cons] at hlen; omega)]
      rfl

/-- A write whose offset reaches past an initial segment leaves that
segment unchanged. -/
theorem writeAt_append (a : List Nat) (buf bytes : List Nat) (k : Nat) :
    writeAt (a ++ buf) (a.length + k) bytes = a ++ writeAt buf k bytes := by
  induction a with
  | nil => simp
  | cons x rest ih =>
    show writeAt (x :: (rest ++ buf)) (rest.length + 1 + k) bytes =
      x :: (rest ++ writeAt buf k bytes)
    have h1 : rest.length + 1 + k = (rest.length + k) + 1 := by omega
    rw [h1]
    show x :: writeAt (rest ++ buf) (rest.length + k) bytes =
      x :: (rest ++ writeAt buf k bytes)
    rw [ih]

/-- The three consecutive writes of the assembly amount to concatenating
the three parts. -/
theorem assembleBmp_eq_append (a b c : List Nat) :
    assembleBmp a b c = a ++ b ++ c := by
  show writeAt (writeAt (writeAt (List.replicate (a.length + b.length + c.length) 0) 0 a)
      a.length b) (a.length + b.length) c = a ++ b ++ c
  rw [writeAt_zero a _ (by simp only [List.length_replicate]; omega)]
  rw [show (List.replicate (a.length + b.length + c.length) (0 : Nat)).drop a.length
          = List.replicate (b.length + c.length) 0 from by
    rw [List.drop_replicate]; congr 1; omega]
  have h2 := writeAt_append a (List.replicate (b.length + c.length) 0) b 0
  rw [Nat.add_zero] at h2
  rw [h2, writeAt_zero b _ (by simp only [List.length_replicate]; omega)]
  rw [show (List.replicate (b.length + c.length) (0 : Nat)).drop b.length
          = List.replicate c.length 0 from by
    rw [List.drop_replicate]; congr 1; omega]
  rw [writeAt_append a (b ++ List.replicate c.length 0) c b.length]
  have h3 := writeAt_append b (List.replicate c.length 0) c 0
  rw [Nat.add_zero] at h3
  rw [h3, writeAt_zero c _ (by simp only [List.length_replicate]; omega)]
  simp [List.drop_replicate]

/-- Flat-mapping constant-size chunks over a range yields n * k elements. -/
theorem flatMap_range_length (f : Nat → List Nat) (k : Nat)
    (hf : ∀ i, (f i).length = k) :
    ∀ n, ((List.range n).flatMap f).length = n * k := by
  intro n
  induction n with
  | zero => simp
  | succ m ih =>
    rw [List.range_succ]
    simp only [List.flatMap_append, List.length_append, ih, List.flatMap_cons,
      List.flatMap_nil, List.append_nil, hf]
    rw [Nat.succ_mul]

/-- Indexing into a flat map of constant-size chunks over a range selects
position c of chunk j. -/
theorem flatMap_range_getD (f : Nat → List Nat) (k : Nat)
    (hf : ∀ i, (f i).length = k) :
    ∀ n j c, j < n → c < k →
      ((List.range n).flatMap f).getD (j * k + c) 0 = (f j).getD c 0 := by
  intro n
  induction n with
  | zero => intro j c hj _; exact absurd hj (Nat.not_lt_zero j)
  | succ m ih =>
    intro j c hj hc
    rw [List.range_succ, List.flatMap_append]
    have hlen : ((List.range m).flatMap f).length = m * k := flatMap_range_length f k hf m
    rcases Nat.lt_or_ge j m with hjm | hjm
    · rw [List.getD_append _ _ 0 _ ?bound]
      · exact ih j c hjm hc
      case bound =>
        rw [hlen]
        have h1 : (j + 1) * k = j * k + k := by ring
        have h2 : (j + 1) * k ≤ m * k := Nat.mul_le_mul_right k hjm
        omega
    · have hjm' : j = m := by omega
      subst hjm'
      rw [List.getD_append_right _ _ 0 _ (by rw [hlen]; exact Nat.le_add_right _ _)]
      rw [hlen]
      simp only [List.flatMap_cons, List.flatMap_nil, List.append_nil]
      congr 1
      omega

/-- convertToBGRA with the structure fields and inner lets spelled out. -/
theorem convertToBGRA_mk (W H : Nat) (data : List Nat) :
    convertToBGRA ⟨W, H, data⟩ =
      ((List.range H).flatMap fun y =>
        (List.range W).flatMap fun x =>
          [data.getD (((H - 1 - y) * W + x) * 4 + 2) 0,
           data.getD (((H - 1 - y) * W + x) * 4 + 1) 0,
           data.getD (((H - 1 - y) * W + x) * 4) 0,
           data.getD (((H - 1 - y) * W + x) * 4 + 3) 0]) := rfl

/-- The transcoded buffer always has width * height * 4 bytes. -/
theorem convertToBGRA_length (W H : Nat) (data : List Nat) :
    (convertToBGRA ⟨W, H, data⟩).length = W * H * 4 := by
  have hcell : ∀ (y x : Nat),
      ([data.getD (((H - 1 - y) * W + x) * 4 + 2) 0,
        data.getD (((H - 1 - y) * W + x) * 4 + 1) 0,
        data.getD (((H - 1 - y) * W + x) * 4) 0,
        data.getD (((H - 1 - y) * W + x) * 4 + 3) 0] : List Nat).length = 4 :=
    fun _ _ => rfl
  have hrow : ∀ y, ((List.range W).flatMap fun x =>
      [data.getD (((H - 1 - y) * W + x) * 4 + 2) 0,
       data.getD (((H - 1 - y) * W + x) * 4 + 1) 0,
       data.getD (((H - 1 - y) * W + x) * 4) 0,
       data.getD (((H - 1 - y) * W + x) * 4 + 3) 0]).length = W * 4 :=
    fun y => flatMap_range_length _ 4 (hcell y) W
  rw [convertToBGRA_mk]
  rw [flatMap_range_length _ (W * 4) hrow H]
  ring

/-- Pointwise description of convertToBGRA: destination byte c of pixel
(x, y) is source byte bgraChannel c of pixel (x, height - 1 - y). -/
theorem convertToBGRA_getD (W H : Nat) (data : List Nat) (y x c : Nat)
    (hy : y < H) (hx : x < W) (hc : c < 4) :
    (convertToBGRA ⟨W, H, data⟩).getD ((y * W + x) * 4 + c) 0 =
      data.getD (((H - 1 - y) * W + x) * 4 + bgraChannel c) 0 := by
  have hcell : ∀ (y x : Nat),
      ([data.getD (((H - 1 - y) * W + x) * 4 + 2) 0,
        data.getD (((H - 1 - y) * W + x) * 4 + 1) 0,
        data.getD (((H - 1 - y) * W + x) * 4) 0,
        data.getD (((H - 1 - y) * W + x) * 4 + 3) 0] : List Nat).length = 4 :=
    fun _ _ => rfl
  have hrow : ∀ y, ((List.range W).flatMap fun x =>
      [data.getD (((H - 1 - y) * W + x) * 4 + 2) 0,
       data.getD (((H - 1 - y) * W + x) * 4 + 1) 0,
       data.getD (((H - 1 - y) * W + x) * 4) 0,
       data.getD (((H - 1 - y) * W + x) * 4 + 3) 0]).length = W * 4 :=
    fun y => flatMap_range_length _ 4 (hcell y) W
  have h1 := flatMap_range_getD _ (W * 4) hrow H y (x * 4 + c) hy (by omega)
  have h2 := flatMap_range_getD _ 4 (hcell y) W x c hx hc
  rw [convertToBGRA_mk]
  have hidx : (y * W + x) * 4 + c = y * (W * 4) + (x * 4 + c) := by ring
  rw [hidx]
  refine h1.trans (h2.trans ?_)
  interval_cases c <;> simp [bgraChannel]

/-- The source channel index stays within a pixel. -/
theorem bgraChannel_lt_four (c : Nat) : bgraChannel c < 4 := by
  unfold bgraChannel
  split <;> omega

/-- Exchanging B and R twice restores the channel. -/
theorem bgraChannel_bgraChannel (c : Nat) (hc : c < 4) :
    bgraChannel (bgraChannel c) = c := by
  interval_cases c <;> rfl

/-- A replacement whose pattern does not occur returns the list unchanged. -/
theorem listReplaceFirst_of_not_includes (pat rep : List Char) :
    ∀ s, listIncludes s pat = false → listReplaceFirst s pat rep = s := by
  intro s
  induction s with
  | nil =>
    intro h
    unfold listIncludes at h
    simp only [Bool.or_false] at h
    unfold listReplaceFirst
    simp [h]
  | cons ch rest ih =>
    intro h
    unfold listIncludes at h
    simp only [Bool.or_eq_false_iff] at h
    unfold listReplaceFirst
    simp [h.1, ih h.2]

/-- String version: replace is the identity when the pattern is absent. -/
theorem jsReplace_of_not_includes (s pat rep : String) (h : strIncludes s pat = false) :
    jsReplace s pat rep = s := by
  unfold jsReplace
  rw [listReplaceFirst_of_not_includes pat.data rep.data s.data h]

/-- C3: for every pixel buffer of width W > 0, height H > 0 and RGBA data
of length W * H * 4, the transcoder returns a buffer of the same length in
which, for every destination row y < H and column x < W, the bytes at
(y*W+x)*4 .. +3 are the source bytes at ((H-1-y)*W+x)*4 offset by 2, 1, 0,
3: BGRA channel order with vertically flipped rows. -/
theorem convertToBGRA_pixel_mapping (W H : Nat) (data : List Nat)
    (hW : 0 < W) (hH : 0 < H) (hlen : data.length = W * H * 4)
    (y x : Nat) (hy : y < H) (hx : x < W) :
    (convertToBGRA ⟨W, H, data⟩).length = data.length ∧
    (convertToBGRA ⟨W, H, data⟩).getD ((y * W + x) * 4) 0 =
      data.getD (((H - 1 - y) * W + x) * 4 + 2) 0 ∧
    (convertToBGRA ⟨W, H, data⟩).getD ((y * W + x) * 4 + 1) 0 =
      data.getD (((H - 1 - y) * W + x) * 4 + 1) 0 ∧
    (convertToBGRA ⟨W, H, data⟩).getD ((y * W + x) * 4 + 2) 0 =
      data.getD (((H - 1 - y) * W + x) * 4) 0 ∧
    (convertToBGRA ⟨W, H, data⟩).getD ((y * W + x) * 4 + 3) 0 =
      data.getD (((H - 1 - y) * W + x) * 4 + 3) 0 := by
  refine ⟨by rw [convertToBGRA_length, hlen], ?_, ?_, ?_, ?_⟩
  · have h := convertToBGRA_getD W H data y x 0 hy hx (by omega)
    simpa [bgraChannel] using h
  · have h := convertToBGRA_getD W H data y x 1 hy hx (by omega)
    simpa [bgraChannel] using h
  · have h := convertToBGRA_getD W H data y x 2 hy hx (by omega)
    simpa [bgraChannel] using h
  · have h := convertToBGRA_getD W H data y x 3 hy hx (by omega)
    simpa [bgraChannel] using h

/-- C3 witness: the 1-column, 2-row image with rows 1 2 3 4 and 5 6 7 8,
checked at destination row 0, column 0. -/
theorem convertToBGRA_pixel_mapping_witness :
    0 < 1 ∧ 0 < 2 ∧ ([1, 2, 3, 4, 5, 6, 7, 8] : List Nat).length = 1 * 2 * 4 ∧
    0 < 2 ∧ 0 < 1 ∧
    ((convertToBGRA ⟨1, 2, [1, 2, 3, 4, 5, 6, 7, 8]⟩).length =
        ([1, 2, 3, 4, 5, 6, 7, 8] : List Nat).length ∧
      (convertToBGRA ⟨1, 2, [1, 2, 3, 4, 5, 6, 7, 8]⟩).getD ((0 * 1 + 0) * 4) 0 =
        ([1, 2, 3, 4, 5, 6, 7, 8] : List Nat).getD (((2 - 1 - 0) * 1 + 0) * 4 + 2) 0 ∧
      (convertToBGRA ⟨1, 2, [1, 2, 3, 4, 5, 6, 7, 8]⟩).getD ((0 * 1 + 0) * 4 + 1) 0 =
        ([1, 2, 3, 4, 5, 6, 7, 8] : List Nat).getD (((2 - 1 - 0) * 1 + 0) * 4 + 1) 0 ∧
      (convertToBGRA ⟨1, 2, [1, 2, 3, 4, 5, 6, 7, 8]⟩).getD ((0 * 1 + 0) * 4 + 2) 0 =
        ([1, 2, 3, 4, 5, 6, 7, 8] : List Nat).getD (((2 - 1 - 0) * 1 + 0) * 4) 0 ∧
      (convertToBGRA ⟨1, 2, [1, 2, 3, 4, 5, 6, 7, 8]⟩).getD ((0 * 1 + 0) * 4 + 3) 0 =
        ([1, 2, 3, 4, 5, 6, 7, 8] : List Nat).getD (((2 - 1 - 0) * 1 + 0) * 4 + 3) 0) :=
  ⟨by decide, by decide, by decide, by decide, by decide,
   convertToBGRA_pixel_mapping 1 2 [1, 2, 3, 4, 5, 6, 7, 8]
     (by decide) (by decide) (by decide) 0 0 (by decide) (by decide)⟩

/-- C10: the RGBA-to-BGRA-with-vertical-flip transcoding is an involution:
applied twice to any W * H * 4 byte buffer with W > 0 and H > 0 it
restores the original bytes. -/
theorem convertToBGRA_involution (W H : Nat) (data : List Nat)
    (hW : 0 < W) (hH : 0 < H) (hlen : data.length = W * H * 4) :
    convertToBGRA ⟨W, H, convertToBGRA ⟨W, H, data⟩⟩ = data := by
  apply List.ext_getElem
  · rw [convertToBGRA_length, hlen]
  · intro i h1 h2
    have hi : i < W * H * 4 := by rw [convertToBGRA_length] at h1; exact h1
    obtain ⟨y, x, c, hy, hx, hc, hieq⟩ :
        ∃ y x c, y < H ∧ x < W ∧ c < 4 ∧ i = (y * W + x) * 4 + c := by
      refine ⟨i / 4 / W, i / 4 % W, i % 4, ?_, Nat.mod_lt _ hW, Nat.mod_lt _ (by omega), ?_⟩
      · have hq : i / 4 < H * W := by
          have hq' : i / 4 < W * H := by omega
          rw [Nat.mul_comm H W]
          exact hq'
        exact (Nat.div_lt_iff_lt_mul hW).mpr hq
      · have e1 := Nat.div_add_mod (i / 4) W
        have e2 := Nat.div_add_mod i 4
        have e3 : i / 4 / W * W = W * (i / 4 / W) := Nat.mul_comm _ _
        omega
    subst hieq
    rw [← List.getD_eq_getElem _ 0 h1, ← List.getD_eq_getElem _ 0 h2]
    rw [convertToBGRA_getD W H (convertToBGRA ⟨W, H, data⟩) y x c hy hx hc]
    rw [convertToBGRA_getD W H data (H - 1 - y) x (bgraChannel c) (by omega) hx
      (bgraChannel_lt_four c)]
    rw [show H - 1 - (H - 1 - y) = y from by omega]
    rw [bgraChannel_bgraChannel c hc]

/-- C10 witness: the involution at the concrete 1 by 2 image. -/
theorem convertToBGRA_involution_witness :
    0 < 1 ∧ 0 < 2 ∧ ([1, 2, 3, 4, 5, 6, 7, 8] : List Nat).length = 1 * 2 * 4 ∧
    convertToBGRA ⟨1, 2, convertToBGRA ⟨1, 2, [1, 2, 3, 4, 5, 6, 7, 8]⟩⟩ =
      [1, 2, 3, 4, 5, 6, 7, 8] :=
  ⟨by decide, by decide, by decide,
   convertToBGRA_involution 1 2 [1, 2, 3, 4, 5, 6, 7, 8] (by decide) (by decide) (by decide)⟩

/-- C4: on a successful decode of a well-formed pixel buffer, the try block
assembles exactly FileHeader ++ InfoHeader ++ transcoded pixels into the
BMP blob, and that buffer has 54 + W * H * 4 bytes. -/
theorem encodedBmp_layout (file : JsFile) (W H : Nat) (data : List Nat)
    (hW : 0 < W) (hH : 0 < H) (hlen : data.length = W * H * 4) :
    (tryBlockResult file (Except.ok ⟨W, H, data⟩)).2 =
      Except.ok { name := jsReplace file.name ".png" ".bmp",
                  url := UrlTarget.bmpBlob (createBmpFileHeader data.length ++
                    createBmpInfoHeader W H ++ convertToBGRA ⟨W, H, data⟩) } ∧
    (createBmpFileHeader data.length ++ createBmpInfoHeader W H ++
        convertToBGRA ⟨W, H, data⟩).length = 54 + W * H * 4 := by
  constructor
  · rw [← assembleBmp_eq_append]
    rfl
  · rw [List.length_append, List.length_append, convertToBGRA_length]
    rw [show (createBmpFileHeader data.length).length = 14 from rfl,
        show (createBmpInfoHeader W H).length = 40 from rfl]

/-- C4 witness: the assembly at a 1 by 1 image. -/
theorem encodedBmp_layout_witness :
    0 < 1 ∧ 0 < 1 ∧ ([10, 20, 30, 40] : List Nat).length = 1 * 1 * 4 ∧
    ((tryBlockResult pngFile (Except.ok ⟨1, 1, [10, 20, 30, 40]⟩)).2 =
      Except.ok { name := jsReplace pngFile.name ".png" ".bmp",
                  url := UrlTarget.bmpBlob (createBmpFileHeader
                    ([10, 20, 30, 40] : List Nat).length ++
                    createBmpInfoHeader 1 1 ++ convertToBGRA ⟨1, 1, [10, 20, 30, 40]⟩) } ∧
    (createBmpFileHeader ([10, 20, 30, 40] : List Nat).length ++ createBmpInfoHeader 1 1 ++
        convertToBGRA ⟨1, 1, [10, 20, 30, 40]⟩).length = 54 + 1 * 1 * 4) :=
  ⟨by decide, by decide, by decide,
   encodedBmp_layout pngFile 1 1 [10, 20, 30, 40] (by decide) (by decide) (by decide)⟩

/-- C1: at a PNG input whose decode succeeds, the function resolves with
the object URL of the original source file — the return statement inside
the finally block overrides the try-block result — while the discarded
try-block result held the real BMP-encoded bytes, which differ from the
source-file URL. -/
theorem finally_overrides_success :
    convertPngToBmp pngFile (Except.ok img1x1) =
      Except.ok { name := "photo.bmp", url := UrlTarget.sourceFile } ∧
    (tryBlockResult pngFile (Except.ok img1x1)).2 =
      Except.ok { name := "photo.bmp",
                  url := UrlTarget.bmpBlob (createBmpFileHeader 4 ++
                    createBmpInfoHeader 1 1 ++ convertToBGRA img1x1) } ∧
    UrlTarget.sourceFile ≠ UrlTarget.bmpBlob (createBmpFileHeader 4 ++
      createBmpInfoHeader 1 1 ++ convertToBGRA img1x1) :=
  ⟨rfl, rfl, by decide⟩

/-- C2: when the decode step rejects after the format check has passed, the
try block completes with that error, yet the return statement inside the
finally block swallows it and the function resolves with a success
record. -/
theorem finally_swallows_decode_error :
    (tryBlockResult pngFile (Except.error "decode failed")).2 =
      Except.error "decode failed" ∧
    convertPngToBmp pngFile (Except.error "decode failed") =
      Except.ok { name := "photo.bmp", url := UrlTarget.sourceFile } :=
  ⟨rfl, rfl⟩

/-- C8: whenever the MIME type does not contain "png", the function throws
the unsupported-format error before the try block: no object URL is
created, no image load starts, and the outcome does not depend on the
decode oracle. -/
theorem non_png_rejected (file : JsFile) (decode : Except String ImageData)
    (h : strIncludes file.mimeType "png" = false) :
    convertPngToBmpRun file decode = ([], Except.error "Only PNG files are supported") := by
  unfold convertPngToBmpRun
  simp [h]

/-- C8 witness: a JPEG file with an arbitrary decode outcome. -/
theorem non_png_rejected_witness :
    strIncludes jpegFile.mimeType "png" = false ∧
    convertPngToBmpRun jpegFile (Except.ok img1x1) =
      ([], Except.error "Only PNG files are supported") :=
  ⟨by decide, non_png_rejected jpegFile (Except.ok img1x1) (by decide)⟩

/-- C9 counterexample: the claim asserts a decoded image with width 0 or
height 0 makes the function fail with an InvalidDimensions error instead of
invoking the header builders or the transcoder; in the source there is no
such validation: on a 0 by 0 decoded image the header builders and the
transcoder both run and the call still resolves successfully. -/
theorem zero_dimensions_reach_builders :
    convertPngToBmpRun pngFile (Except.ok { width := 0, height := 0, data := [] }) =
      ([ConvAction.createObjectUrl, ConvAction.loadImage, ConvAction.buildHeaders,
        ConvAction.transcode, ConvAction.createObjectUrl],
       Except.ok { name := "photo.bmp", url := UrlTarget.sourceFile }) := rfl

/-- C9 (amended): the function performs no dimension validation: for every
file passing the format check and every successfully decoded image,
including width 0 or height 0, the header builders and the transcoder are
invoked, and no InvalidDimensions failure exists — the call resolves with
the finally-block success record. -/
theorem no_dimension_validation (file : JsFile) (img : ImageData)
    (h : strIncludes file.mimeType "png" = true) :
    (convertPngToBmpRun file (Except.ok img)).1 =
      [ConvAction.createObjectUrl, ConvAction.loadImage, ConvAction.buildHeaders,
       ConvAction.transcode, ConvAction.createObjectUrl] ∧
    (convertPngToBmpRun file (Except.ok img)).2 = Except.ok (finallyResult file) := by
  unfold convertPngToBmpRun tryBlockResult
  simp [h]

/-- C9 amended witness: a 0 by 0 decoded image still reaches the builders
and resolves successfully. -/
theorem no_dimension_validation_witness :
    strIncludes pngFile.mimeType "png" = true ∧
    ((convertPngToBmpRun pngFile (Except.ok ⟨0, 0, []⟩)).1 =
      [ConvAction.createObjectUrl, ConvAction.loadImage, ConvAction.buildHeaders,
       ConvAction.transcode, ConvAction.createObjectUrl] ∧
    (convertPngToBmpRun pngFile (Except.ok ⟨0, 0, []⟩)).2 =
      Except.ok (finallyResult pngFile)) :=
  ⟨by decide, no_dimension_validation pngFile ⟨0, 0, []⟩ (by decide)⟩

/-- C7 counterexample: the claim asserts a name without a ".png" suffix
gets ".bmp" appended, mapping "noext" to "noext.bmp"; the source calls
name.replace, which returns the name unchanged when the pattern is absent,
so the result is named "noext". -/
theorem noext_name_unchanged :
    convertPngToBmp noextFile (Except.ok img1x1) =
      Except.ok { name := "noext", url := UrlTarget.sourceFile } ∧
    ("noext" : String) ≠ "noext.bmp" :=
  ⟨rfl, by decide⟩

/-- C7 (amended): the output name replaces the first occurrence of ".png"
anywhere in the input name with ".bmp"; when ".png" does not occur the
name is returned unchanged (nothing is appended); "photo.png" still maps
to "photo.bmp". -/
theorem output_name_derivation (file : JsFile) (decode : Except String ImageData)
    (r : ConvertedFile) (h : convertPngToBmp file decode = Except.ok r) :
    r.name = jsReplace file.name ".png" ".bmp" ∧
    (strIncludes file.name ".png" = false → r.name = file.name) := by
  unfold convertPngToBmp convertPngToBmpRun at h
  by_cases hb : strIncludes file.mimeType "png" = true
  · simp only [hb, if_true] at h
    have hr : finallyResult file = r := by
      simpa using h
    subst hr
    constructor
    · rfl
    · intro hni
      exact jsReplace_of_not_includes file.name ".png" ".bmp" hni
  · simp only [hb, if_false] at h
    simp at h

/-- C7 amended witness: "photo.png" maps to "photo.bmp". -/
theorem output_name_derivation_witness :
    convertPngToBmp pngFile (Except.ok img1x1) =
      Except.ok { name := "photo.bmp", url := UrlTarget.sourceFile } ∧
    (({ name := "photo.bmp", url := UrlTarget.sourceFile } : ConvertedFile).name =
        jsReplace pngFile.name ".png" ".bmp" ∧
      (strIncludes pngFile.name ".png" = false →
        ({ name := "photo.bmp", url := UrlTarget.sourceFile } : ConvertedFile).name =
          pngFile.name)) :=
  ⟨rfl, output_name_derivation pngFile (Except.ok img1x1)
    { name := "photo.bmp", url := UrlTarget.sourceFile } rfl⟩
